import Mathlib

/-!
Verification of the parsing/transformation/reconciliation core of `ws-actual`
(a WealthSimple → ActualBudget importer) against its specification.

The JavaScript source is shallowly embedded:
* JS strings are Lean `String`s; a field that may be `undefined`/`null` is an
  `Option String` (`none` = absent, `some ""` = the empty string — both falsy).
* JS numbers are modelled as exact rationals plus a `NaN` point (`JSNum`);
  IEEE-754 rounding error is outside the model.  For every concrete value used
  here the double computation and the rational computation agree (e.g.
  `10.555 * 100` is exactly the double `1055.5`).
* Host primitives that the core delegates to (`new Date(...)` reformatting,
  the JS `RegExp` engine used on *user-configured* patterns) are abstracted as
  function parameters; every fixed regex literal appearing in the source is
  implemented directly.
* SHA-256 is implemented in full (FIPS 180-4) and validated below against the
  standard test vectors.
-/

namespace WsActual

/-! ## JavaScript value helpers -/

/-- A JavaScript number: `NaN` or an exact value (doubles modelled as exact
rationals). -/
inductive JSNum where
  | nan : JSNum
  | num (q : ℚ) : JSNum
  deriving DecidableEq, Repr

/-- Negation of a JS number (`-x`); `NaN` propagates. -/
def JSNum.jsNeg : JSNum → JSNum
  | .nan => .nan
  | .num q => .num (-q)

/-- JS `Math.abs`; `NaN` propagates. -/
def JSNum.jsAbs : JSNum → JSNum
  | .nan => .nan
  | .num q => .num |q|

/-- The value of the raw record's `amount` field as it can reach the
transformer: `undefined`, `null`, the empty string, `NaN`, or a number.
(Per the record invariant, no other string ever sits in `amount`.) -/
inductive AmountVal where
  | undef
  | nullv
  | emptyStr
  | nanv
  | num (q : ℚ)
  deriving DecidableEq, Repr

/-- JS truthiness of a string-or-absent value: `undefined`, `null` and `""`
are falsy, every other string is truthy. -/
def truthy : Option String → Bool
  | none => false
  | some s => !(s == "")

/-- JS whitespace (the `WhiteSpace` and `LineTerminator` productions: what
`String.prototype.trim` strips and `\s` matches). -/
def jsWs (c : Char) : Bool :=
  let n := c.toNat
  n == 0x9 || n == 0xa || n == 0xb || n == 0xc || n == 0xd || n == 0x20 ||
  n == 0xa0 || n == 0x1680 || (0x2000 ≤ n && n ≤ 0x200a) ||
  n == 0x2028 || n == 0x2029 || n == 0x202f || n == 0x205f || n == 0x3000 || n == 0xfeff

/-- JS `String.prototype.trim`. -/
def jsTrim (s : String) : String :=
  String.mk (((s.data.dropWhile jsWs).reverse.dropWhile jsWs).reverse)

/-- JS `String.prototype.toLowerCase`, restricted to ASCII letters (the only
case-carrying characters appearing in the data this code handles). -/
def jsToLower (s : String) : String := String.mk (s.data.map Char.toLower)

/-- Boolean infix test on character lists (`sub` occurs contiguously in
`hay`). -/
def listIsInfix (sub hay : List Char) : Bool :=
  match hay with
  | [] => sub.isEmpty
  | c :: t => sub.isPrefixOf (c :: t) || listIsInfix sub t

/-- JS `String.prototype.includes`. -/
def jsIncludes (s sub : String) : Bool := listIsInfix sub.data s.data

/-- JS `a || b` on string-or-absent values (keeps `a` when truthy, else `b`). -/
def jsOrStr (a b : Option String) : Option String := if truthy a then a else b

/-- Trim an optional string (JS `x?.trim()`). -/
def optTrim (o : Option String) : Option String := o.map jsTrim

/-- Space-join a list of strings (JS `Array.prototype.join(' ')`). -/
def joinSpace : List String → String
  | [] => ""
  | [s] => s
  | s :: rest => s ++ " " ++ joinSpace rest

/-! ## transformer.js — data shapes -/

/-- Pre-stored transfer info (`wsTransaction._transferInfo`, attached upstream
to moved transactions only; absent on records coming straight from parsing). -/
structure TransferInfo where
  isTransfer : Bool
  toAccount : Option String
  deriving DecidableEq, Repr

/-- A raw WealthSimple transaction record, as consumed by
`transformTransaction` (transformer.js).  The JS field `from` is spelled
`fromAcct` and `to` is spelled `toAcct` (`from` is a Lean keyword);
`_transferInfo` is spelled `transferInfoPre`. -/
structure WSTransaction where
  account : Option String := none
  date : Option String := none
  submitted : Option String := none
  filled : Option String := none
  amount : AmountVal := .undef
  type : Option String := none
  description : Option String := none
  email : Option String := none
  message : Option String := none
  filledQuantity : Option String := none
  transactionId : Option String := none
  subheading : Option String := none
  fromAcct : Option String := none
  toAcct : Option String := none
  transferInfoPre : Option TransferInfo := none
  deriving DecidableEq, Repr

/-- The options object of `transformTransaction`; `isAccountMapped` is the
optional account-mapping predicate. -/
structure TransformOptions where
  isAccountMapped : Option (String → Bool) := none

/-- The transformed (canonical) transaction.  `transferTag = some a` models
the presence of the keys `_isTransfer: true, _transferToAccount: a`;
`transferTag = none` models their absence. -/
structure ActualTransaction where
  Date : Option String
  Account : Option String
  Payee : String
  Notes : String
  Amount : JSNum
  transferTag : Option (Option String)
  deriving Repr

/-! ## transformer.js — transfer detection -/

/-- Embedding of `detectTransfer` (transformer.js): both `from` and `to`
truthy, a mapping predicate supplied, and both legs mapped; the target is the
other leg relative to `account`. -/
def detectTransfer (t : WSTransaction) (isAccountMapped : Option (String → Bool)) :
    TransferInfo :=
  if truthy t.fromAcct && truthy t.toAcct then
    match isAccountMapped with
    | some mapped =>
      if mapped (t.fromAcct.getD "") && mapped (t.toAcct.getD "") then
        let targetAccount :=
          if t.account == t.fromAcct then t.toAcct.getD "" else t.fromAcct.getD ""
        { isTransfer := true, toAccount := some targetAccount }
      else { isTransfer := false, toAccount := none }
    | none => { isTransfer := false, toAccount := none }
  else { isTransfer := false, toAccount := none }

/-! ## transformer.js — amount conversion and debit classification -/

/-- JS `Math.round` on a finite value: round half toward positive infinity. -/
def jsRound (x : ℚ) : ℤ := ⌊x + 1/2⌋

/-- The dollars→cents conversion of `transformTransaction` on a plain number
(the `rawCents >= 0 ? Math.round(rawCents) : -Math.round(-rawCents)` branch). -/
def centsQ (q : ℚ) : ℤ :=
  let rawCents := q * 100
  if 0 ≤ rawCents then jsRound rawCents else -(jsRound (-rawCents))

/-- Embedding of the `amountInCents` computation of `transformTransaction`:
empty string / `null` / `undefined` give `NaN`; `NaN` stays `NaN` (it fails
the `rawCents >= 0` test and `-Math.round(-NaN)` is `NaN`); numbers round
half away from zero. -/
def centsOfAmount : AmountVal → JSNum
  | .undef => .nan
  | .nullv => .nan
  | .emptyStr => .nan
  | .nanv => .nan
  | .num q => .num ((centsQ q : ℤ) : ℚ)

/-- The debit-keyword list of `isDebitTransaction`. -/
def debitTypes : List String :=
  ["withdrawal", "withdraw", "payment", "purchase", "transfer_out", "fee", "interest_charge"]

/-- The credit-keyword list of `isDebitTransaction`. -/
def creditTypes : List String :=
  ["deposit", "transfer_in", "interest", "dividend", "refund"]

/-- JS `transaction.amount < 0`: false for `undefined` (`NaN` comparison),
`null` (coerces to `0`), the empty string (coerces to `0`) and `NaN`. -/
def amountLtZero : AmountVal → Bool
  | .num q => decide (q < 0)
  | _ => false

/-- Embedding of `isDebitTransaction` (transformer.js): debit keywords first,
then the raw-negative-amount test, then credit keywords, else credit. -/
def isDebitTransaction (t : WSTransaction) : Bool :=
  let ty := jsToLower (t.type.getD "")
  if debitTypes.any (fun d => jsIncludes ty d) then true
  else if amountLtZero t.amount then true
  else if creditTypes.any (fun c => jsIncludes ty c) then false
  else false

/-! ## transformer.js — notes synthesis -/

/-- Embedding of `buildNotesFromSpec` (transformer.js). -/
def buildNotesFromSpec (t : WSTransaction) : String :=
  let subheading := (optTrim t.subheading).getD ""
  let ty := (optTrim t.type).getD ""
  let mainPart0 :=
    if subheading != "" && ty != "" && subheading != ty then subheading ++ " - " ++ ty
    else if subheading != "" then subheading
    else if ty != "" then ty
    else ""
  let email := (optTrim t.email).getD ""
  let mainPart := if email != "" then mainPart0 ++ " (" ++ email ++ ")" else mainPart0
  let msg := (optTrim t.message).getD ""
  let qty := (optTrim t.filledQuantity).getD ""
  let txid := (optTrim t.transactionId).getD ""
  let hasMessage := msg != ""
  let hasQuantity := qty != ""
  let suffixParts :=
    (if hasMessage then [msg] else []) ++ (if hasQuantity then [qty] else []) ++
    (if txid != "" then ["[" ++ txid ++ "]"] else [])
  let suffix := joinSpace suffixParts
  if suffix == "" then mainPart
  else if hasMessage || hasQuantity then mainPart ++ ": " ++ suffix
  else mainPart ++ " " ++ suffix

/-! ## transformer.js — payee synthesis

The three payee-extraction regexes of `buildPayeeName` are fixed literals in
the source, so they are implemented directly (with the exact backtracking
semantics of the JS engine on these patterns). -/

/-- JS regex line terminators (what `.` does not match). -/
def lineTerm (c : Char) : Bool :=
  c.toNat == 0xa || c.toNat == 0xd || c.toNat == 0x2028 || c.toNat == 0x2029

/-- JS regex `.` (without the `s` flag). -/
def dotChar (c : Char) : Bool := !(lineTerm c)

/-- JS regex `\w`. -/
def wordChar (c : Char) : Bool :=
  ('a' ≤ c && c ≤ 'z') || ('A' ≤ c && c ≤ 'Z') || ('0' ≤ c && c ≤ '9') || c == '_'

/-- Case-insensitive (ASCII) prefix test on character lists. -/
def listStartsWithCI : List Char → List Char → Bool
  | [], _ => true
  | _ :: _, [] => false
  | p :: ps, c :: cs => (Char.toLower p == Char.toLower c) && listStartsWithCI ps cs

/-- Alternatives of the leading literal of payee pattern 1, in the regex's
alternation order. -/
def p1Prefixes : List String :=
  ["transfer to", "transfer from", "payment to", "payment from"]

/-- Capture of payee pattern 1,
`/^(?:transfer (?:to|from)|payment (?:to|from))\s+(.+)$/i`: a recognised
prefix, at least one whitespace, then a non-empty line-terminator-free rest
(the greedy `\s+` backtracks at most one step, to leave a single whitespace
character as the capture when nothing else follows). -/
def p1Capture (d : List Char) : Option (List Char) :=
  match p1Prefixes.find? (fun p => listStartsWithCI p.data d) with
  | none => none
  | some p =>
    let r := d.drop p.data.length
    let wsRun := r.takeWhile jsWs
    let maxWs := wsRun.length
    if maxWs == 0 then none
    else
      let cap0 := r.drop maxWs
      if !cap0.isEmpty then (if cap0.all dotChar then some cap0 else none)
      else if decide (2 ≤ maxWs) && dotChar ((wsRun.getLast?).getD ' ') then
        some [(wsRun.getLast?).getD ' ']
      else none

/-- Lazy-capture scan shared by payee patterns 2 and 3
(`^(.+?)(?:suffix)?$`): the shortest non-empty all-`.` prefix whose remainder
satisfies `restOk` is captured; a line terminator aborts the scan. -/
def lazyCapture (restOk : List Char → Bool) : List Char → List Char → Option (List Char)
  | _, [] => none
  | accRev, c :: rest =>
      if dotChar c then
        if restOk rest then some ((c :: accRev).reverse)
        else lazyCapture restOk (c :: accRev) rest
      else none

/-- Remainder test for payee pattern 2,
`/^(.+?)(?:\s+\d{4,}|\s+#\d+|\s+\*{4}\d{4})?$/`. -/
def p2RestOk (r : List Char) : Bool :=
  let w := r.takeWhile jsWs
  let r2 := r.dropWhile jsWs
  r.isEmpty ||
  (!w.isEmpty &&
    ((!r2.isEmpty && r2.all Char.isDigit && decide (4 ≤ r2.length)) ||
     (match r2 with
      | '#' :: ds => !ds.isEmpty && ds.all Char.isDigit
      | _ => false) ||
     (r2.length == 8 && (r2.take 4).all (· == '*') && (r2.drop 4).all Char.isDigit)))

/-- Remainder test for payee pattern 3,
`/^(.+?)(?:\s+on\s+\d{1,2}\/\d{1,2})?$/` (case-sensitive, unlike pattern 1). -/
def p3RestOk (r : List Char) : Bool :=
  r.isEmpty ||
  (!(r.takeWhile jsWs).isEmpty &&
    (match r.dropWhile jsWs with
     | 'o' :: 'n' :: r3 =>
        !(r3.takeWhile jsWs).isEmpty &&
        (let r4 := r3.dropWhile jsWs
         let ds := r4.takeWhile Char.isDigit
         (decide (1 ≤ ds.length) && decide (ds.length ≤ 2)) &&
         (match r4.dropWhile Char.isDigit with
          | '/' :: r6 => !r6.isEmpty && r6.all Char.isDigit && decide (r6.length ≤ 2)
          | _ => false))
     | _ => false))

/-- Whitespace-collapsing pass of `cleanPayeeName`
(JS `.replace(/\s+/g, ' ')`); the flag records whether the previous character
was whitespace. -/
def collapseWsGo : List Char → Bool → List Char
  | [], _ => []
  | c :: rest, prevWs =>
    if jsWs c then
      (if prevWs then collapseWsGo rest true else ' ' :: collapseWsGo rest true)
    else c :: collapseWsGo rest false

/-- Embedding of `cleanPayeeName` (transformer.js): collapse whitespace, keep
only `[\w\s\-&.']`, trim, and truncate to 100 characters. -/
def cleanPayeeName (name : String) : String :=
  let collapsed := collapseWsGo name.data false
  let kept := collapsed.filter (fun c => wordChar c || jsWs c || c == '-' || c == '&' || c == '.' || c == '\'')
  String.mk ((jsTrim (String.mk kept)).data.take 100)

/-- Ordered `typeMap` of `getPayeeByType` (JS object insertion order, which
`Object.entries` preserves — so `transfer` shadows `transfer_in`). -/
def payeeTypeMap : List (String × String) :=
  [("deposit", "Deposit"), ("withdrawal", "Withdrawal"), ("transfer", "Transfer"),
   ("transfer_in", "Transfer In"), ("transfer_out", "Transfer Out"), ("payment", "Payment"),
   ("purchase", "Purchase"), ("interest", "Interest"), ("dividend", "Dividend"),
   ("fee", "Fee"), ("refund", "Refund")]

/-- Embedding of `getPayeeByType` (transformer.js). -/
def getPayeeByType (ty : Option String) : String :=
  let lowerType := jsToLower (ty.getD "")
  match payeeTypeMap.find? (fun kv => jsIncludes lowerType kv.1) with
  | some kv => kv.2
  | none => if truthy ty then ty.getD "" else "Unknown"

/-- Payees folded into the platform name by `buildPayeeName`. -/
def wealthSimplePayees : List String :=
  ["Referral", "Interest", "Bonus", "Cash back", "Reimbursement"]

/-- Embedding of `buildPayeeName` (transformer.js): first matching pattern's
cleaned capture, else the cleaned description, else the type-derived name;
then the platform-payee replacement. -/
def buildPayeeName (t : WSTransaction) : String :=
  let payeeName :=
    if truthy t.description then
      let d := (t.description.getD "").data
      let cap :=
        match p1Capture d with
        | some c => some c
        | none =>
          match lazyCapture p2RestOk [] d with
          | some c => some c
          | none => lazyCapture p3RestOk [] d
      match cap with
      | some c =>
          let cl := cleanPayeeName (String.mk c)
          if cl == "" then cleanPayeeName (String.mk d) else cl
      | none => cleanPayeeName (String.mk d)
    else getPayeeByType t.type
  if wealthSimplePayees.contains payeeName then "WealthSimple" else payeeName

/-! ## transformer.js — the transformer -/

/-- Embedding of `formatDateToYMD` (transformer.js).  The
`new Date(...)`/`toISOString` pipeline is host functionality, abstracted as
`jsDateReformat` (which returns the reformatted `YYYY-MM-DD` string, or the
original string when the host cannot parse the input — both are plain
strings, which is all the surrounding code relies on). -/
def formatDateToYMD (jsDateReformat : String → String) (dateStr : Option String) :
    Option String :=
  if truthy dateStr then some (jsDateReformat (dateStr.getD "")) else none

/-- Embedding of `transformTransaction` (transformer.js), parameterised by the
host date-reformatting function. -/
def transformTransaction (jsDateReformat : String → String) (t : WSTransaction)
    (options : TransformOptions) : ActualTransaction :=
  let rawDate := jsOrStr t.date (jsOrStr t.filled t.submitted)
  let transactionDate := formatDateToYMD jsDateReformat rawDate
  let amountInCents := centsOfAmount t.amount
  let isDebit := isDebitTransaction t
  let finalAmount := if isDebit then (amountInCents.jsAbs).jsNeg else amountInCents.jsAbs
  let transferInfo := detectTransfer t options.isAccountMapped
  let actualTransferInfo := t.transferInfoPre.getD transferInfo
  let notes :=
    if actualTransferInfo.isTransfer && truthy t.fromAcct && truthy t.toAcct then
      t.fromAcct.getD "" ++ " -> " ++ t.toAcct.getD ""
    else buildNotesFromSpec t
  let payee := buildPayeeName t
  { Date := transactionDate
    Account := t.account
    Payee := payee
    Notes := notes
    Amount := finalAmount
    transferTag :=
      if actualTransferInfo.isTransfer then some actualTransferInfo.toAccount else none }

/-! ## SHA-256 (FIPS 180-4)

Implemented over `Nat` with explicit `% 2^32` truncation; bytes are `Nat`s
below 256.  Validated against the standard test vectors below. -/

/-- Truncation to a 32-bit word. -/
def w32 (x : Nat) : Nat := x % 4294967296

/-- Right rotation of a 32-bit word. -/
def rotr32 (x n : Nat) : Nat := w32 ((x >>> n) ||| (x <<< (32 - n)))

def bigSigma0 (x : Nat) : Nat := rotr32 x 2 ^^^ rotr32 x 13 ^^^ rotr32 x 22

def bigSigma1 (x : Nat) : Nat := rotr32 x 6 ^^^ rotr32 x 11 ^^^ rotr32 x 25

def smallSigma0 (x : Nat) : Nat := rotr32 x 7 ^^^ rotr32 x 18 ^^^ (x >>> 3)

def smallSigma1 (x : Nat) : Nat := rotr32 x 17 ^^^ rotr32 x 19 ^^^ (x >>> 10)

/-- The SHA-256 round constants (FIPS 180-4 §4.2.2, written in decimal). -/
def sha256K : List Nat :=
  [1116352408, 1899447441, 3049323471, 3921009573, 961987163, 1508970993,
   2453635748, 2870763221, 3624381080, 310598401, 607225278, 1426881987,
   1925078388, 2162078206, 2614888103, 3248222580, 3835390401, 4022224774,
   264347078, 604807628, 770255983, 1249150122, 1555081692, 1996064986,
   2554220882, 2821834349, 2952996808, 3210313671, 3336571891, 3584528711,
   113926993, 338241895, 666307205, 773529912, 1294757372, 1396182291,
   1695183700, 1986661051, 2177026350, 2456956037, 2730485921, 2820302411,
   3259730800, 3345764771, 3516065817, 3600352804, 4094571909, 275423344,
   430227734, 506948616, 659060556, 883997877, 958139571, 1322822218,
   1537002063, 1747873779, 1955562222, 2024104815, 2227730452, 2361852424,
   2428436474, 2756734187, 3204031479, 3329325298]

/-- Big-endian bytes of a number, fixed byte width. -/
def beBytes : Nat → Nat → List Nat
  | 0, _ => []
  | k + 1, n => (n >>> (8 * k)) % 256 :: beBytes k n

/-- SHA-256 padding: `0x80`, zeros to 56 mod 64, then the 64-bit bit length. -/
def sha256pad (msg : List Nat) : List Nat :=
  let l := msg.length
  let z := (119 - l % 64) % 64
  msg ++ [0x80] ++ List.replicate z 0 ++ beBytes 8 (8 * l)

/-- Split a byte list into 64-byte blocks (fuel-driven, structurally
recursive). -/
def chunk64 : Nat → List Nat → List (List Nat)
  | 0, _ => []
  | _, [] => []
  | fuel + 1, l => l.take 64 :: chunk64 fuel (l.drop 64)

/-- First sixteen big-endian 32-bit words of a 64-byte block. -/
def words16 : Nat → List Nat → List Nat
  | 0, _ => []
  | fuel + 1, b0 :: b1 :: b2 :: b3 :: rest =>
      (b0 <<< 24 ||| b1 <<< 16 ||| b2 <<< 8 ||| b3) :: words16 fuel rest
  | _ + 1, _ => []

/-- Message-schedule extension; `acc` holds the words produced so far, newest
first. -/
def extendW : Nat → List Nat → List Nat
  | 0, acc => acc.reverse
  | fuel + 1, acc =>
      let nw := w32 (smallSigma1 (acc.getD 1 0) + acc.getD 6 0 +
                     smallSigma0 (acc.getD 14 0) + acc.getD 15 0)
      extendW fuel (nw :: acc)

/-- The eight 32-bit working variables of the SHA-256 compression function. -/
structure Hash8 where
  a : Nat
  b : Nat
  c : Nat
  d : Nat
  e : Nat
  f : Nat
  g : Nat
  h : Nat
  deriving DecidableEq, Repr

/-- One SHA-256 compression round, applied to the precomputed `Kₜ + Wₜ`. -/
def sha256round (st : Hash8) (kw : Nat) : Hash8 :=
  let t1 := w32 (st.h + bigSigma1 st.e +
                 ((st.e &&& st.f) ^^^ ((st.e ^^^ 0xffffffff) &&& st.g)) + kw)
  let t2 := w32 (bigSigma0 st.a + ((st.a &&& st.b) ^^^ (st.a &&& st.c) ^^^ (st.b &&& st.c)))
  ⟨w32 (t1 + t2), st.a, st.b, st.c, w32 (st.d + t1), st.e, st.f, st.g⟩

/-- Process one 64-byte block. -/
def sha256block (st : Hash8) (block : List Nat) : Hash8 :=
  let ws := extendW 48 (words16 16 block).reverse
  let kws := List.zipWith (fun k w => w32 (k + w)) sha256K ws
  let r := kws.foldl sha256round st
  ⟨w32 (st.a + r.a), w32 (st.b + r.b), w32 (st.c + r.c), w32 (st.d + r.d),
   w32 (st.e + r.e), w32 (st.f + r.f), w32 (st.g + r.g), w32 (st.h + r.h)⟩

/-- The SHA-256 initial hash value (FIPS 180-4 §5.3.3, written in decimal). -/
def sha256init : Hash8 :=
  ⟨1779033703, 3144134277, 1013904242, 2773480762,
   1359893119, 2600822924, 528734635, 1541459225⟩

/-- SHA-256 of a byte list, as the 32 digest bytes. -/
def sha256 (msg : List Nat) : List Nat :=
  let blocks := chunk64 (msg.length / 64 + 2) (sha256pad msg)
  let st := blocks.foldl sha256block sha256init
  beBytes 4 st.a ++ beBytes 4 st.b ++ beBytes 4 st.c ++ beBytes 4 st.d ++
  beBytes 4 st.e ++ beBytes 4 st.f ++ beBytes 4 st.g ++ beBytes 4 st.h

/-- Lowercase hex digit. -/
def hexDigitChar (n : Nat) : Char :=
  if n < 10 then Char.ofNat (48 + n) else Char.ofNat (87 + n)

/-- Lowercase hex string of a byte list. -/
def hexOfBytes (bs : List Nat) : String :=
  String.mk (bs.flatMap (fun b => [hexDigitChar (b / 16), hexDigitChar (b % 16)]))

/-- UTF-8 encoding of one character. -/
def utf8Char (c : Char) : List Nat :=
  let n := c.toNat
  if n < 0x80 then [n]
  else if n < 0x800 then [0xc0 ||| (n >>> 6), 0x80 ||| (n &&& 0x3f)]
  else if n < 0x10000 then
    [0xe0 ||| (n >>> 12), 0x80 ||| ((n >>> 6) &&& 0x3f), 0x80 ||| (n &&& 0x3f)]
  else
    [0xf0 ||| (n >>> 18), 0x80 ||| ((n >>> 12) &&& 0x3f),
     0x80 ||| ((n >>> 6) &&& 0x3f), 0x80 ||| (n &&& 0x3f)]

/-- UTF-8 bytes of a string (what `createHash('sha256').update(s)` hashes). -/
def utf8 (s : String) : List Nat := s.data.flatMap utf8Char

/-- Lowercase hex SHA-256 digest of a string. -/
def sha256hex (s : String) : String := hexOfBytes (sha256 (utf8 s))

/-! ## actual-client.js — dedup id, wire conversion, transfer mirroring -/

/-- A canonical (transformed) transaction as consumed by `ActualClient`:
the five public fields plus the internal markers `_isTransfer`
(`isTransferFlag`), `_transferToAccount` (`transferToAccount`), `_accountId`
(`accountIdOverride`) and the optional `category`. -/
structure CanonicalTransaction where
  Date : Option String
  Account : String
  Payee : String
  Notes : String
  Amount : Int
  isTransferFlag : Bool := false
  transferToAccount : Option String := none
  accountIdOverride : Option String := none
  category : Option String := none
  deriving DecidableEq, Repr

/-- JSON string escaping as performed by `JSON.stringify` on a string value. -/
def jsonEscapeChar (c : Char) : List Char :=
  if c == '"' then ['\\', '"']
  else if c == '\\' then ['\\', '\\']
  else if c.toNat == 0x8 then ['\\', 'b']
  else if c.toNat == 0x9 then ['\\', 't']
  else if c.toNat == 0xa then ['\\', 'n']
  else if c.toNat == 0xc then ['\\', 'f']
  else if c.toNat == 0xd then ['\\', 'r']
  else if c.toNat < 0x20 then
    ['\\', 'u', '0', '0', hexDigitChar (c.toNat / 16), hexDigitChar (c.toNat % 16)]
  else [c]

/-- JSON serialization of a string value. -/
def jsonStr (s : String) : String :=
  String.mk ('"' :: (s.data.flatMap jsonEscapeChar ++ ['"']))

/-- Decimal digits of a natural number (fuel-driven; 40 digits suffice for
every number this code meets). -/
def natDigitsGo : Nat → Nat → List Char
  | 0, _ => []
  | fuel + 1, n => if n == 0 then [] else natDigitsGo fuel (n / 10) ++ [Char.ofNat (48 + n % 10)]

/-- Decimal string of a natural number. -/
def natDecimal (n : Nat) : String :=
  if n == 0 then "0" else String.mk (natDigitsGo 40 n)

/-- Decimal string of an integer — how `JSON.stringify` prints an integral JS
number of magnitude below `1e21` (which covers every cents amount). -/
def intDecimal : Int → String
  | .ofNat n => natDecimal n
  | .negSucc n => "-" ++ natDecimal (n + 1)

/-- Embedding of the `sortedTransaction` serialization inside
`generateImportedId`: `JSON.stringify({account, amount, date, notes, payee})`
with exactly that key order (object-literal insertion order). -/
def jsonOfCanonicalTransaction (t : CanonicalTransaction) : String :=
  "\x7b\"account\":" ++ jsonStr t.Account ++
  ",\"amount\":" ++ intDecimal t.Amount ++
  ",\"date\":" ++ (match t.Date with | some d => jsonStr d | none => "null") ++
  ",\"notes\":" ++ jsonStr t.Notes ++
  ",\"payee\":" ++ jsonStr t.Payee ++ "\x7d"

/-- Embedding of `ActualClient.generateImportedId` (actual-client.js):
`"ws_" + sha256hex(json).substring(0, 16)`. -/
def generateImportedId (t : CanonicalTransaction) : String :=
  "ws_" ++ String.mk ((sha256hex (jsonOfCanonicalTransaction t)).data.take 16)

/-- An account of the external ledger. -/
structure ActualAccount where
  id : String
  name : String
  deriving DecidableEq, Repr

/-- A payee of the external ledger; `transfer_acct` marks a transfer payee. -/
structure ActualPayee where
  id : String
  name : String
  transfer_acct : Option String := none
  deriving DecidableEq, Repr

/-- The lookup state of a connected `ActualClient`: `findAccount` models
`accountMap.get(nameOrId) || null` and `findTransferPayee` models
`transferPayeeMap.get(nameOrId) || null` (both maps are keyed by id and by
name, as built in `loadAccounts`/`loadPayees`). -/
structure ClientState where
  findAccount : String → Option ActualAccount
  findTransferPayee : String → Option ActualPayee

/-- A wire-format import record (`Option` fields model key absence). -/
structure WireRecord where
  date : Option String
  amount : Int
  imported_id : String
  cleared : Bool
  account : Option String := none
  payee : Option String := none
  payee_name : Option String := none
  notes : Option String := none
  category : Option String := none
  deriving DecidableEq, Repr

/-- Embedding of `ActualClient.convertToImportFormat` (actual-client.js). -/
def convertToImportFormat (st : ClientState) (t : CanonicalTransaction) : WireRecord :=
  let imported_id := generateImportedId t
  let base : WireRecord :=
    { date := t.Date, amount := t.Amount, imported_id := imported_id, cleared := false }
  let withAccount :=
    if t.Account != "" then
      match st.findAccount t.Account with
      | some a => { base with account := some a.id }
      | none => base
    else base
  let withPayee :=
    if t.isTransferFlag && truthy t.transferToAccount then
      match st.findTransferPayee (t.transferToAccount.getD "") with
      | some p => { withAccount with payee := some p.id, notes := some t.Notes }
      | none =>
        let b := if t.Payee != "" then { withAccount with payee_name := some t.Payee }
                 else withAccount
        { b with notes := some t.Notes }
    else
      let b := if t.Payee != "" then { withAccount with payee_name := some t.Payee }
               else withAccount
      { b with notes := some t.Notes }
  if truthy t.category then { withPayee with category := t.category } else withPayee

/-- One record grouped for batch import: the `transactionsByAccount` map key
it is pushed under, the wire record, and the `isMirrorTransfer` marker. -/
structure GroupedRecord where
  accountKey : String
  record : WireRecord
  isMirror : Bool
  deriving DecidableEq, Repr

/-- Embedding of the per-transaction body of `ActualClient.importTransactions`
(actual-client.js, the `transactions.forEach` loop): resolve the posting
account, convert to wire format, and — for a transfer whose destination has a
transfer payee — also synthesize the mirror record for the destination
account.  `none` models the catch branch (the transaction is recorded as
failed and contributes no grouped records). -/
def importExpandOne (st : ClientState) (t : CanonicalTransaction) :
    Option (List GroupedRecord) :=
  let accountId? :=
    if truthy t.accountIdOverride then some (t.accountIdOverride.getD "")
    else if t.Account == "" then none
    else match st.findAccount t.Account with
      | some a => some a.id
      | none => none
  match accountId? with
  | none => none
  | some accountId =>
    let it := convertToImportFormat st t
    let primary : GroupedRecord := { accountKey := accountId, record := it, isMirror := false }
    if t.isTransferFlag && truthy t.transferToAccount then
      match st.findTransferPayee (t.transferToAccount.getD "") with
      | some transferPayee =>
        let mirror : WireRecord :=
          { date := t.Date, amount := -t.Amount,
            imported_id := it.imported_id ++ "_mirror", cleared := false,
            payee := some transferPayee.id, notes := some t.Notes }
        some [primary,
              { accountKey := t.transferToAccount.getD "", record := mirror, isMirror := true }]
      | none => some [primary]
    else some [primary]

/-! ## parser.js — parseCurrencyValue -/

/-- The sign class `[+−-]` of the currency regex (`−` is U+2212). -/
def currencySign (c : Char) : Bool := c == '+' || c == '-' || c.toNat == 0x2212

/-- The capture groups of the currency regex
`/^([+−-])?\s*\$?([+−-])?\s*([\d,]+(?:\.\d{2})?)\s*([A-Z]{3})?$/`. -/
structure CurrencyGroups where
  sign1 : Option Char
  sign2 : Option Char
  numText : List Char
  ccy : Option String
  deriving DecidableEq, Repr

/-- The `^([+−-])?\s*\$?([+−-])?\s*` prefix of the currency regex: the two
optional sign captures and the remaining characters.  Each optional piece
draws from a class disjoint from its successors, so greedy left-to-right
consumption is equivalent to the JS engine's backtracking search here. -/
def currencyPrefix (cs0 : List Char) : Option Char × Option Char × List Char :=
  let s1 := match cs0 with
    | c :: _ => if currencySign c then some c else none
    | [] => none
  let cs1 := if s1.isSome then cs0.drop 1 else cs0
  let cs2 := cs1.dropWhile jsWs
  let hasDollar := match cs2 with
    | '$' :: _ => true
    | _ => false
  let cs3 := if hasDollar then cs2.drop 1 else cs2
  let s2 := match cs3 with
    | c :: _ => if currencySign c then some c else none
    | [] => none
  let cs4 := if s2.isSome then cs3.drop 1 else cs3
  (s1, s2, cs4.dropWhile jsWs)

/-- The `(?:\.\d{2})?\s*([A-Z]{3})?$` tail of the currency regex, applied to
what follows the digit/comma run: on success, the consumed decimal characters
(possibly `[]`) and the optional currency-code capture.  A `.` that is not
followed by exactly two digits cannot be consumed by any later piece, so the
optional decimal group is forced; likewise the final code must be exactly
three uppercase letters against the end of input. -/
def currencyTail (cs6 : List Char) : Option (List Char × Option String) :=
  let dec := match cs6 with
    | '.' :: d1 :: d2 :: _ => if d1.isDigit && d2.isDigit then some ['.', d1, d2] else none
    | _ => none
  let cs7 := if dec.isSome then cs6.drop 3 else cs6
  let cs8 := cs7.dropWhile jsWs
  match cs8 with
  | [] => some (dec.getD [], none)
  | [a, b, c] =>
    if ('A' ≤ a && a ≤ 'Z') && ('A' ≤ b && b ≤ 'Z') && ('A' ≤ c && c ≤ 'Z') then
      some (dec.getD [], some (String.mk [a, b, c]))
    else none
  | _ => none

/-- Matcher for the currency regex
`/^([+−-])?\s*\$?([+−-])?\s*([\d,]+(?:\.\d{2})?)\s*([A-Z]{3})?$/`:
prefix, then the greedy non-empty `[\d,]+` run (forced maximal, since no
later piece can match a digit or comma), then the tail. -/
def currencyRegexMatch (value : String) : Option CurrencyGroups :=
  let pr := currencyPrefix value.data
  let cs5 := pr.2.2
  let run := cs5.takeWhile (fun c => c.isDigit || c == ',')
  if run.isEmpty then none
  else
    match currencyTail (cs5.drop run.length) with
    | some (dec, ccy) => some { sign1 := pr.1, sign2 := pr.2.1, numText := run ++ dec, ccy := ccy }
    | none => none

/-- Numeric value of a digit list. -/
def digitsToNat (l : List Char) : Nat :=
  l.foldl (fun acc c => acc * 10 + (c.toNat - 48)) 0

/-- JS `parseFloat(match[3].replace(/,/g, ''))`: strip commas, read the
optional two decimals; a run with no digit at all (commas only) gives `NaN`. -/
def parseFloatNum (numText : List Char) : JSNum :=
  let stripped := numText.filter (fun c => !(c == ','))
  let intPart := stripped.takeWhile Char.isDigit
  let rest := stripped.dropWhile Char.isDigit
  let fracPart := match rest with
    | '.' :: ds => ds
    | _ => []
  if intPart.isEmpty && fracPart.isEmpty then .nan
  else .num ((digitsToNat intPart : ℚ) + (digitsToNat fracPart : ℚ) / ((10 : ℚ) ^ fracPart.length))

/-- Result shape of `parseCurrencyValue`: `amount = none` models `null`,
`currency = none` models `undefined`. -/
structure CurrencyResult where
  amount : Option JSNum
  currency : Option String
  deriving DecidableEq, Repr

/-- Embedding of `parseCurrencyValue` (parser.js): on regex failure warn and
return `{amount: null, currency: undefined}`; otherwise the sign is
`match[1] || match[2]` and the amount is `parseFloat(...) * sign`. -/
def parseCurrencyValue (value : String) : CurrencyResult :=
  match currencyRegexMatch value with
  | none => { amount := none, currency := none }
  | some g =>
    let sc := match g.sign1 with
      | some c => some c
      | none => g.sign2
    let sign : ℚ := match sc with
      | some c => if c.toNat == 0x2212 || c == '-' then -1 else 1
      | none => 1
    let signedAmount := match parseFloatNum g.numText with
      | .nan => JSNum.nan
      | .num q => JSNum.num (q * sign)
    { amount := some signedAmount, currency := g.ccy }

/-! ## config.js — resolveAccount -/

/-- A configured account mapping (`{wsAccountName, actualAccountId}`). -/
structure AccountMapping where
  wsAccountName : String
  actualAccountId : String
  deriving DecidableEq, Repr

/-- The result object of a successful `resolveAccount`. -/
structure ResolvedAccount where
  accountId : String
  accountName : String
  needsLookup : Bool
  matchType : String
  matchedPattern : String
  deriving DecidableEq, Repr

/-- The metacharacter class `/[.*+?^${}()|[\]\\]/` of `resolveAccount`. -/
def regexMetaChars : List Char :=
  ['.', '*', '+', '?', '^', '$', '\x7b', '\x7d', '(', ')', '|', '[', ']', '\\']

/-- Does a pattern contain a regex metacharacter? -/
def hasRegexChars (p : String) : Bool := p.data.any (fun c => regexMetaChars.contains c)

/-- Embedding of `resolveAccount` (config.js), parameterised by the host
regex engine: `regexTest r s` models `new RegExp(r, 'i').test(s)` on the
user-configured pattern, with an invalid pattern (whose `RegExp` constructor
throw is caught and skipped) modelled as `false` — the identical control
flow, since both a no-match and a catch just move on to the next entry.
Entries missing either field are skipped. -/
def resolveAccount (regexTest : String → String → Bool) (wsAccountName : String)
    (accounts : List AccountMapping) : Option ResolvedAccount :=
  match accounts with
  | [] => none
  | a :: rest =>
    if a.wsAccountName == "" || a.actualAccountId == "" then
      resolveAccount regexTest wsAccountName rest
    else if hasRegexChars a.wsAccountName then
      if regexTest ("^" ++ a.wsAccountName ++ "$") wsAccountName then
        some { accountId := a.actualAccountId, accountName := wsAccountName,
               needsLookup := false, matchType := "regex", matchedPattern := a.wsAccountName }
      else resolveAccount regexTest wsAccountName rest
    else if jsToLower a.wsAccountName == jsToLower wsAccountName then
      some { accountId := a.actualAccountId, accountName := wsAccountName,
             needsLookup := false, matchType := "exact", matchedPattern := a.wsAccountName }
    else resolveAccount regexTest wsAccountName rest

/-! ## Specification-side definitions

These render the claims' own wording, for comparison with the embedded code. -/

/-- Round half away from zero, as the specification words it: standard
rounding (half toward `+∞`) for non-negative values; negate, round, negate
back for negative values. -/
def roundHalfAwayFromZero (x : ℚ) : ℤ :=
  if 0 ≤ x then jsRound x else -(jsRound (-x))

/-- Is a JS number strictly negative?  (`NaN` is not.) -/
def jsNumNegB : JSNum → Bool
  | .nan => false
  | .num q => decide (q < 0)

/-- The claim's digit part `digits[,digits]*`: non-empty digit groups
separated by single commas (fuel-driven; the fuel is the list length). -/
def digitGroupsB : Nat → List Char → Bool
  | 0, l => !l.isEmpty && l.all Char.isDigit
  | fuel + 1, l =>
    let ds := l.takeWhile Char.isDigit
    !ds.isEmpty &&
      (match l.drop ds.length with
       | [] => true
       | ',' :: rest => digitGroupsB fuel rest
       | _ => false)

/-- The claim's digit part, with adequate fuel. -/
def digitGroups (l : List Char) : Bool := digitGroupsB l.length l

/-- The currency grammar exactly as the claim words it: the shared
sign/whitespace/`$` prefix and decimal/currency tail, but with the digit part
required to be comma-separated digit groups (`digits[,digits]*`).  The digit
part must coincide with the maximal digit/comma run, since a leftover digit
or comma could never be matched by the tail. -/
def claimGrammarC8 (value : String) : Bool :=
  let pr := currencyPrefix value.data
  let cs5 := pr.2.2
  let run := cs5.takeWhile (fun c => c.isDigit || c == ',')
  digitGroups run && (currencyTail (cs5.drop run.length)).isSome

/-- The grammar the code actually accepts: any non-empty digit/comma run
(matching `[\d,]+`) between the shared prefix and tail. -/
def codeGrammarC8 (value : String) : Bool :=
  let pr := currencyPrefix value.data
  let cs5 := pr.2.2
  let run := cs5.takeWhile (fun c => c.isDigit || c == ',')
  !run.isEmpty && (currencyTail (cs5.drop run.length)).isSome

/-- Does one mapping entry match a name, as the claim words it: patterns with
a regex metacharacter match via the (host) anchored case-insensitive regex
`^pattern$`, plain patterns match exactly and case-insensitively. -/
def resolveMatches (regexTest : String → String → Bool) (name : String)
    (a : AccountMapping) : Bool :=
  if hasRegexChars a.wsAccountName then regexTest ("^" ++ a.wsAccountName ++ "$") name
  else jsToLower a.wsAccountName == jsToLower name

/-- The result `resolveAccount` builds for a matching entry. -/
def resolveResult (name : String) (a : AccountMapping) : ResolvedAccount :=
  { accountId := a.actualAccountId, accountName := name, needsLookup := false,
    matchType := if hasRegexChars a.wsAccountName then "regex" else "exact",
    matchedPattern := a.wsAccountName }

/-- A field that is present after trimming, as the notes claim words it
(`none` when the field is absent or trims to the empty string). -/
def presentTrimmed (o : Option String) : Option String :=
  match optTrim o with
  | some s => if s == "" then none else some s
  | none => none

/-- The notes string exactly as claim C7 words it: the transfer arrow form
for detected transfers, else main part (subheading/type), optional email,
and the colon-vs-no-colon suffix. -/
def notesSpecC7 (t : WSTransaction) (opts : TransformOptions) : String :=
  if (detectTransfer t opts.isAccountMapped).isTransfer then
    t.fromAcct.getD "" ++ " -> " ++ t.toAcct.getD ""
  else
    let mainBase :=
      match presentTrimmed t.subheading, presentTrimmed t.type with
      | some s, some ty => if s != ty then s ++ " - " ++ ty else s
      | some s, none => s
      | none, some ty => ty
      | none, none => ""
    let mainPart :=
      match presentTrimmed t.email with
      | some e => mainBase ++ " (" ++ e ++ ")"
      | none => mainBase
    let msg := presentTrimmed t.message
    let qty := presentTrimmed t.filledQuantity
    let tid := presentTrimmed t.transactionId
    if msg.isSome || qty.isSome then
      mainPart ++ ": " ++
        joinSpace (msg.toList ++ qty.toList ++ (tid.map (fun i => "[" ++ i ++ "]")).toList)
    else
      match tid with
      | some i => mainPart ++ " [" ++ i ++ "]"
      | none => mainPart

/-! ## Concrete fixtures used by witnesses and counterexamples -/

/-- A predicate that maps every account name. -/
def predTrue : String → Bool := fun _ => true

/-- Options carrying the all-mapping predicate. -/
def optsAllMapped : TransformOptions := { isAccountMapped := some predTrue }

/-- A record whose `from` and `to` legs are the same (mapped) account. -/
def txEqualLegs : WSTransaction :=
  { account := some "Savings", amount := .num 500, type := some "transfer",
    fromAcct := some "Savings", toAcct := some "Savings" }

/-- A debit-keyword record with a positive amount that rounds to zero cents. -/
def txTinyFee : WSTransaction := { type := some "fee", amount := .num (1/1000) }

/-- The spec's debit-override scenario: `type="payment", amount=50.00`. -/
def txPayment : WSTransaction := { type := some "payment", amount := .num 50 }

/-- A negative amount on a credit-keyword type. -/
def txNegDeposit : WSTransaction := { type := some "deposit", amount := .num (-5) }

/-- A record with every field absent. -/
def txAllAbsent : WSTransaction := {}

/-- A record with every string field the empty string and an empty amount. -/
def txAllEmpty : WSTransaction :=
  { account := some "", date := some "", submitted := some "", filled := some "",
    amount := .emptyStr, type := some "", description := some "", email := some "",
    message := some "", filledQuantity := some "", transactionId := some "",
    subheading := some "", fromAcct := some "", toAcct := some "" }

/-- The spec's concrete notes scenario. -/
def txNotesScenario : WSTransaction :=
  { date := some "2024-01-15", filled := some "2024-01-16", amount := .num (201/2),
    type := some "deposit", description := some "Salary deposit", email := some "u@x.com",
    message := some "Biweekly", transactionId := some "t1" }

/-- A transfer record with both legs mapped. -/
def txTransfer : WSTransaction :=
  { account := some "Checking Account", date := some "2024-01-15", amount := .num 500,
    description := some "Transfer to savings", type := some "transfer",
    fromAcct := some "Checking Account", toAcct := some "Savings Account",
    transactionId := some "txn_transfer_1" }

/-- Maps exactly the two accounts of `txTransfer`. -/
def predTwoAccounts : String → Bool :=
  fun s => s == "Checking Account" || s == "Savings Account"

/-- A canonical transaction for hashing. -/
def canonSample : CanonicalTransaction :=
  { Date := some "2024-01-15", Account := "WealthSimple Cash", Payee := "Salary deposit",
    Notes := "deposit Salary deposit", Amount := 10050 }

/-- A canonical transaction whose strings need JSON escaping. -/
def canonEscaped : CanonicalTransaction :=
  { Date := none, Account := "A", Payee := "p\"q\\r\nx", Notes := "", Amount := -5 }

/-- Ledger account fixtures. -/
def chkAccount : ActualAccount := { id := "acc1", name := "Checking" }

def savAccount : ActualAccount := { id := "acc2", name := "Savings" }

/-- Transfer-payee fixtures: distinct payees for the two accounts. -/
def chkTransferPayee : ActualPayee :=
  { id := "payee_chk", name := "Transfer : Checking", transfer_acct := some "acc1" }

def savTransferPayee : ActualPayee :=
  { id := "payee_sav", name := "Transfer : Savings", transfer_acct := some "acc2" }

/-- A client state whose maps are keyed by both account name and id, as
`loadAccounts`/`loadPayees` build them. -/
def clientFixture : ClientState :=
  { findAccount := fun s =>
      if s == "Checking" || s == "acc1" then some chkAccount
      else if s == "Savings" || s == "acc2" then some savAccount
      else none
    findTransferPayee := fun s =>
      if s == "Checking" || s == "acc1" then some chkTransferPayee
      else if s == "Savings" || s == "acc2" then some savTransferPayee
      else none }

/-- A detected transfer posted at Checking toward Savings. -/
def transferTx : CanonicalTransaction :=
  { Date := some "2024-01-15", Account := "Checking", Payee := "Transfer to Savings",
    Notes := "Checking -> Savings", Amount := -50000, isTransferFlag := true,
    transferToAccount := some "Savings" }

/-- Mapping-configuration fixtures: two entries both matching `cash`. -/
def mappingA : AccountMapping := { wsAccountName := "Cash", actualAccountId := "id1" }

def mappingB : AccountMapping := { wsAccountName := "cash", actualAccountId := "id2" }

/-- A host regex engine that matches nothing (usable as any `regexTest`). -/
def regexNone : String → String → Bool := fun _ _ => false

set_option maxRecDepth 40000

section MainTheorems

attribute [local semireducible] Rat.mul Rat.add Rat.sub Rat.inv

/-- Validation of the SHA-256 implementation against the FIPS 180-4 test
vector for `"abc"`. -/
theorem sha256_validation_abc :
    sha256hex "abc" = "ba7816bf8f01cfea414140de5dae2223b00361a396177a9cb410ff61f20015ad" := by
  decide

/-- Validation of the SHA-256 implementation on the empty message. -/
theorem sha256_validation_empty :
    sha256hex "" = "e3b0c44298fc1c149afbf4c8996fb92427ae41e4649b934ca495991b7852b855" := by
  decide

/-- Validation of the dedup-id pipeline (fixed-key-order JSON, UTF-8, SHA-256,
16 hex characters) against an independently computed digest. -/
theorem generateImportedId_validation :
    generateImportedId canonSample = "ws_88511a97e6f28155" ∧
    generateImportedId canonEscaped = "ws_9069a25b82a5d49a" := by
  constructor <;> decide

/-- C1: `generateImportedId` returns `"ws_"` followed by the first 16 hex
characters of the SHA-256 of the JSON serialization of
`{account, amount, date, notes, payee}` (exactly that fixed key order, per
`jsonOfCanonicalTransaction`), and it is a pure function of those five
fields: two transactions equal in them get the identical id. -/
theorem generateImportedId_hash_deterministic (t₁ t₂ : CanonicalTransaction)
    (hacc : t₁.Account = t₂.Account) (hamt : t₁.Amount = t₂.Amount)
    (hdate : t₁.Date = t₂.Date) (hnotes : t₁.Notes = t₂.Notes)
    (hpayee : t₁.Payee = t₂.Payee) :
    generateImportedId t₁ =
      "ws_" ++ String.mk ((sha256hex (jsonOfCanonicalTransaction t₁)).data.take 16) ∧
    generateImportedId t₁ = generateImportedId t₂ := by
  refine ⟨rfl, ?_⟩
  unfold generateImportedId jsonOfCanonicalTransaction
  rw [hacc, hamt, hdate, hnotes, hpayee]

/-- Witness for C1 at a concrete transaction. -/
theorem generateImportedId_hash_deterministic_witness :
    generateImportedId canonSample =
      "ws_" ++ String.mk ((sha256hex (jsonOfCanonicalTransaction canonSample)).data.take 16) ∧
    generateImportedId canonSample = generateImportedId canonSample :=
  generateImportedId_hash_deterministic canonSample canonSample rfl rfl rfl rfl rfl

/-- Oddness of the cents conversion: the negate–round–negate branch makes
`centsQ` odd, so the claimed asymmetry cannot exist. -/
theorem centsQ_neg_eq (d : ℚ) : centsQ d = -(centsQ (-d)) := by
  unfold centsQ jsRound
  have hx : -d * 100 = -(d * 100) := by ring
  rw [hx]
  rcases lt_trichotomy (d * 100) 0 with h | h | h
  · rw [if_neg (not_le.mpr h), if_pos (by linarith)]
  · rw [h]
    norm_num
  · rw [if_pos (le_of_lt h), if_neg (by simpa using h), neg_neg, neg_neg]

/-- C9 counterexample (the claim's stated existential is false): there is no
rational dollar amount `d` with `centsQ d ≠ -centsQ (-d)`. -/
theorem centsQ_no_asymmetry_counterexample :
    ¬ ∃ d : ℚ, centsQ d ≠ -(centsQ (-d)) := by
  rintro ⟨d, hd⟩
  exact hd (centsQ_neg_eq d)

/-- C9 (amended): the dollars→cents conversion is odd —
`cents(d) = -cents(-d)` for every rational `d` — while bare `Math.round`
alone is not (`round(0.5) = 1` but `round(-0.5) = 0`); the exact values
`cents(±10.555) = ±1056` hold. -/
theorem centsQ_oddness_and_values :
    (∀ d : ℚ, centsQ d = -(centsQ (-d))) ∧
    centsQ (10555/1000) = 1056 ∧
    centsQ (-(10555/1000)) = -1056 ∧
    jsRound (1/2) = 1 ∧
    jsRound (-(1/2)) = 0 := by
  refine ⟨centsQ_neg_eq, by decide, by decide, by decide, by decide⟩

/-- Half-ulp bound for `roundHalfAwayFromZero`: the rounded value is within
`1/2` of the input, and a tie is resolved away from zero. -/
theorem roundHalfAwayFromZero_char (x : ℚ) :
    |(roundHalfAwayFromZero x : ℚ) - x| ≤ 1/2 ∧
    (|(roundHalfAwayFromZero x : ℚ) - x| = 1/2 →
      |(roundHalfAwayFromZero x : ℚ)| = |x| + 1/2) := by
  unfold roundHalfAwayFromZero jsRound
  by_cases hx : 0 ≤ x
  · rw [if_pos hx]
    have h1 : ((⌊x + 1/2⌋ : ℤ) : ℚ) ≤ x + 1/2 := Int.floor_le _
    have h2 : x + 1/2 < (⌊x + 1/2⌋ : ℚ) + 1 := Int.lt_floor_add_one _
    constructor
    · rw [abs_le]
      constructor <;> linarith
    · intro htie
      have hr : ((⌊x + 1/2⌋ : ℤ) : ℚ) - x = 1/2 := by
        rcases abs_eq (by norm_num : (0:ℚ) ≤ 1/2) |>.mp htie with h | h
        · exact h
        · linarith
      have hrpos : (0:ℚ) ≤ ((⌊x + 1/2⌋ : ℤ) : ℚ) := by linarith
      rw [abs_of_nonneg hrpos, abs_of_nonneg hx]
      linarith
  · rw [if_neg hx]
    push_neg at hx
    have h1 : ((⌊-x + 1/2⌋ : ℤ) : ℚ) ≤ -x + 1/2 := Int.floor_le _
    have h2 : -x + 1/2 < (⌊-x + 1/2⌋ : ℚ) + 1 := Int.lt_floor_add_one _
    constructor
    · rw [abs_le]
      push_cast
      constructor <;> linarith
    · intro htie
      have hr : -((⌊-x + 1/2⌋ : ℤ) : ℚ) - x = -(1/2) := by
        rcases abs_eq (by norm_num : (0:ℚ) ≤ 1/2) |>.mp htie with h | h
        · push_cast at h ⊢
          linarith
        · push_cast at h ⊢
          linarith
      have hrneg : -((⌊-x + 1/2⌋ : ℤ) : ℚ) ≤ 0 := by linarith
      push_cast
      rw [abs_of_nonpos (by linarith), abs_of_neg hx]
      push_cast at hr ⊢
      linarith

/-- C4: an empty-string/`null`/`undefined` raw amount propagates as a `NaN`
final `Amount` (never a defaulted 0); any numeric amount is converted to
cents by round-half-away-from-zero of `100·d` (standard rounding for
non-negative cents, negate–round–negate for negative), a rounding that stays
within half a cent and resolves ties away from zero; in particular `10.555`
converts to `1056` and `-10.555` to `-1056`. -/
theorem transformTransaction_amount_rounding :
    (∀ (jsD : String → String) (t : WSTransaction) (opts : TransformOptions),
        t.amount = .undef ∨ t.amount = .nullv ∨ t.amount = .emptyStr →
        (transformTransaction jsD t opts).Amount = JSNum.nan) ∧
    (∀ q : ℚ, centsOfAmount (.num q) = .num ((roundHalfAwayFromZero (q * 100) : ℤ) : ℚ)) ∧
    (∀ x : ℚ, |(roundHalfAwayFromZero x : ℚ) - x| ≤ 1/2 ∧
        (|(roundHalfAwayFromZero x : ℚ) - x| = 1/2 →
          |(roundHalfAwayFromZero x : ℚ)| = |x| + 1/2)) ∧
    centsOfAmount (.num (10555/1000)) = .num 1056 ∧
    centsOfAmount (.num (-(10555/1000))) = .num (-1056) := by
  refine ⟨?_, ?_, roundHalfAwayFromZero_char, by decide, by decide⟩
  · intro jsD t opts h
    rcases h with h | h | h <;>
      simp [transformTransaction, centsOfAmount, h, JSNum.jsAbs, JSNum.jsNeg]
  · intro q
    rfl

/-- Witness for C4 at a concrete empty-string amount. -/
theorem transformTransaction_amount_rounding_witness :
    (transformTransaction id { amount := .emptyStr } {}).Amount = JSNum.nan :=
  transformTransaction_amount_rounding.1 id { amount := .emptyStr } {} (Or.inr (Or.inr rfl))

/-- C2 counterexample: a record whose `from` and `to` are the same mapped
account is still marked a transfer — `detectTransfer` never compares the two
legs, so the claim's "both non-equal" requirement does not hold of the code. -/
theorem transformTransaction_equal_legs_marked_transfer :
    txEqualLegs.fromAcct = txEqualLegs.toAcct ∧
    (transformTransaction id txEqualLegs optsAllMapped).transferTag = some (some "Savings") := by
  exact ⟨rfl, by decide⟩

/-- C2 (amended): the output carries the transfer fields exactly when `from`
and `to` are both present and, with a mapping predicate supplied, both
mapped — no `from ≠ to` check is performed; the target account is `to` when
`account` equals `from`, else `from`; with no predicate, or an unmapped leg,
no transfer fields appear. -/
theorem transformTransaction_transfer_characterization
    (jsD : String → String) (t : WSTransaction) (opts : TransformOptions)
    (hpre : t.transferInfoPre = none) :
    (transformTransaction jsD t opts).transferTag =
      match opts.isAccountMapped with
      | none => none
      | some mapped =>
        if (truthy t.fromAcct && truthy t.toAcct) &&
            (mapped (t.fromAcct.getD "") && mapped (t.toAcct.getD "")) then
          some (some (if t.account == t.fromAcct then t.toAcct.getD "" else t.fromAcct.getD ""))
        else none := by
  cases hm : opts.isAccountMapped with
  | none =>
    by_cases hft : (truthy t.fromAcct && truthy t.toAcct) = true <;>
      simp [transformTransaction, detectTransfer, hpre, hm, hft]
  | some mapped =>
    by_cases hft : (truthy t.fromAcct && truthy t.toAcct) = true
    · by_cases hmap : (mapped (t.fromAcct.getD "") && mapped (t.toAcct.getD "")) = true <;>
        simp [transformTransaction, detectTransfer, hpre, hm, hft, hmap]
    · simp [transformTransaction, detectTransfer, hpre, hm, hft]

/-- Witness for C2 (amended) at a concrete mapped transfer. -/
theorem transformTransaction_transfer_characterization_witness :
    (transformTransaction id txTransfer { isAccountMapped := some predTwoAccounts }).transferTag =
      match ({ isAccountMapped := some predTwoAccounts } : TransformOptions).isAccountMapped with
      | none => none
      | some mapped =>
        if (truthy txTransfer.fromAcct && truthy txTransfer.toAcct) &&
            (mapped (txTransfer.fromAcct.getD "") && mapped (txTransfer.toAcct.getD "")) then
          some (some (if txTransfer.account == txTransfer.fromAcct then
                        txTransfer.toAcct.getD "" else txTransfer.fromAcct.getD ""))
        else none :=
  transformTransaction_transfer_characterization id txTransfer _ rfl

/-- Nonnegativity of the cents conversion on nonnegative amounts. -/
theorem centsQ_nonneg {q : ℚ} (hq : 0 ≤ q) : 0 ≤ centsQ q := by
  unfold centsQ jsRound
  rw [if_pos (by positivity)]
  rw [Int.le_floor]
  push_cast
  linarith

/-- Nonpositivity of the cents conversion on negative amounts. -/
theorem centsQ_nonpos {q : ℚ} (hq : q < 0) : centsQ q ≤ 0 := by
  unfold centsQ jsRound
  rw [if_neg (by nlinarith)]
  simp only [neg_nonpos, neg_neg]
  rw [Int.le_floor]
  push_cast
  nlinarith

/-- C3 counterexample: `type = "fee"` (a debit keyword) with the positive
amount `0.001` yields `Amount = 0`, which is not negative — the claim's
"yields a negative Amount" fails on amounts that round to zero cents. -/
theorem debit_keyword_positive_amount_zero_counterexample :
    debitTypes.any (fun d => jsIncludes (jsToLower (txTinyFee.type.getD "")) d) = true ∧
    txTinyFee.amount = .num (1/1000) ∧
    (0 : ℚ) < 1/1000 ∧
    (transformTransaction id txTinyFee {}).Amount = JSNum.num 0 ∧
    jsNumNegB (transformTransaction id txTinyFee {}).Amount = false := by
  refine ⟨by decide, rfl, by norm_num, by decide, by decide⟩

/-- C3 (amended): the final `Amount` is `-abs(cents)` exactly when the record
classifies as a debit and `+abs(cents)` otherwise, with the classification
evaluated debit-keywords first, then raw-negative-amount, then
credit-keywords, else credit; a debit-keyword type with a positive amount
yields `-cents ≤ 0` (strictly negative whenever the rounded cents are
nonzero), and a negative raw amount yields `cents ≤ 0` regardless of the
type — a negative "deposit" stays negative. -/
theorem transformTransaction_sign_classification :
    (∀ (jsD : String → String) (t : WSTransaction) (opts : TransformOptions),
        (transformTransaction jsD t opts).Amount =
          if isDebitTransaction t then ((centsOfAmount t.amount).jsAbs).jsNeg
          else (centsOfAmount t.amount).jsAbs) ∧
    (∀ (jsD : String → String) (t : WSTransaction) (opts : TransformOptions) (q : ℚ),
        t.amount = .num q → 0 < q →
        debitTypes.any (fun d => jsIncludes (jsToLower (t.type.getD "")) d) = true →
        (transformTransaction jsD t opts).Amount = JSNum.num (-((centsQ q : ℤ) : ℚ)) ∧
        0 ≤ centsQ q) ∧
    (∀ (jsD : String → String) (t : WSTransaction) (opts : TransformOptions) (q : ℚ),
        t.amount = .num q → q < 0 →
        (transformTransaction jsD t opts).Amount = JSNum.num ((centsQ q : ℤ) : ℚ) ∧
        centsQ q ≤ 0) ∧
    (∀ (jsD : String → String) (t : WSTransaction) (opts : TransformOptions) (q : ℚ),
        t.amount = .num q → 0 ≤ q →
        debitTypes.any (fun d => jsIncludes (jsToLower (t.type.getD "")) d) = false →
        (transformTransaction jsD t opts).Amount = JSNum.num ((centsQ q : ℤ) : ℚ) ∧
        0 ≤ centsQ q) := by
  refine ⟨fun jsD t opts => rfl, ?_, ?_, ?_⟩
  · intro jsD t opts q hq hpos hkw
    have hc := centsQ_nonneg (le_of_lt hpos)
    have hdeb : isDebitTransaction t = true := by
      unfold isDebitTransaction
      rw [if_pos hkw]
    constructor
    · have : (transformTransaction jsD t opts).Amount =
          if isDebitTransaction t then ((centsOfAmount t.amount).jsAbs).jsNeg
          else (centsOfAmount t.amount).jsAbs := rfl
      rw [this, hdeb, hq]
      simp only [centsOfAmount, JSNum.jsAbs, JSNum.jsNeg, if_true]
      congr 1
      rw [abs_of_nonneg (by exact_mod_cast hc)]
    · exact hc
  · intro jsD t opts q hq hneg
    have hc := centsQ_nonpos hneg
    have hdeb : isDebitTransaction t = true := by
      unfold isDebitTransaction
      by_cases hkw : debitTypes.any
          (fun d => jsIncludes (jsToLower (t.type.getD "")) d) = true
      · rw [if_pos hkw]
      · rw [if_neg hkw, if_pos (by simp [amountLtZero, hq, hneg])]
    constructor
    · have : (transformTransaction jsD t opts).Amount =
          if isDebitTransaction t then ((centsOfAmount t.amount).jsAbs).jsNeg
          else (centsOfAmount t.amount).jsAbs := rfl
      rw [this, hdeb, hq]
      simp only [centsOfAmount, JSNum.jsAbs, JSNum.jsNeg, if_true]
      congr 1
      rw [abs_of_nonpos (by exact_mod_cast hc)]
      ring
    · exact hc
  · intro jsD t opts q hq hpos hkw
    have hc := centsQ_nonneg hpos
    have hdeb : isDebitTransaction t = false := by
      unfold isDebitTransaction
      rw [if_neg (by simp [hkw]), if_neg (by simp [amountLtZero, hq, not_lt.mpr hpos])]
      split <;> rfl
    constructor
    · have : (transformTransaction jsD t opts).Amount =
          if isDebitTransaction t then ((centsOfAmount t.amount).jsAbs).jsNeg
          else (centsOfAmount t.amount).jsAbs := rfl
      rw [this, hdeb, hq]
      simp only [centsOfAmount, JSNum.jsAbs, Bool.false_eq_true, if_false]
      congr 1
      rw [abs_of_nonneg (by exact_mod_cast hc)]
    · exact hc

/-- Witness for C3 (amended): the spec's debit-override scenario
`type = "payment", amount = 50.00`. -/
theorem transformTransaction_sign_classification_witness :
    (transformTransaction id txPayment {}).Amount = JSNum.num (-((centsQ 50 : ℤ) : ℚ)) ∧
    0 ≤ centsQ 50 :=
  transformTransaction_sign_classification.2.1 id txPayment {} 50 rfl (by decide) (by decide)

/-- C10: `transformTransaction` is a total function producing exactly the
five public fields plus the transfer tag (by the shape of
`ActualTransaction` and totality of this embedding): the all-absent and
all-empty records yield `Date = null`, `Amount = NaN`, and the non-absent
`Payee = "Unknown"`, and the transfer fields are present exactly when a
transfer is detected. -/
theorem transformTransaction_total_shape :
    (∀ jsD : String → String, transformTransaction jsD txAllAbsent {} =
      { Date := none, Account := none, Payee := "Unknown", Notes := "",
        Amount := JSNum.nan, transferTag := none }) ∧
    (∀ jsD : String → String, transformTransaction jsD txAllEmpty {} =
      { Date := none, Account := some "", Payee := "Unknown", Notes := "",
        Amount := JSNum.nan, transferTag := none }) ∧
    (∀ (jsD : String → String) (t : WSTransaction) (opts : TransformOptions),
        t.transferInfoPre = none →
        ((transformTransaction jsD t opts).transferTag = none ↔
          (detectTransfer t opts.isAccountMapped).isTransfer = false)) := by
  refine ⟨fun jsD => rfl, fun jsD => rfl, ?_⟩
  intro jsD t opts hpre
  by_cases h : (detectTransfer t opts.isAccountMapped).isTransfer = true <;>
    simp [transformTransaction, hpre, h]

/-- Witness for C10 at a concrete record. -/
theorem transformTransaction_total_shape_witness :
    (transformTransaction id txTransfer
        { isAccountMapped := some predTwoAccounts }).transferTag = none ↔
      (detectTransfer txTransfer
        ({ isAccountMapped := some predTwoAccounts } : TransformOptions).isAccountMapped).isTransfer
        = false :=
  transformTransaction_total_shape.2.2 id txTransfer _ rfl

/-- C5 counterexample: for a transfer Checking→Savings, the synthesized
mirror record (placed in the destination account) carries the transfer payee
of the *destination* account — the same payee as the primary leg — not the
transfer payee of the source account as claimed. -/
theorem importTransactions_mirror_payee_counterexample :
    (importExpandOne clientFixture transferTx).map
        (List.map (fun g => (g.accountKey, g.isMirror, g.record.payee))) =
      some [("acc1", false, some "payee_sav"), ("Savings", true, some "payee_sav")] ∧
    (clientFixture.findTransferPayee transferTx.Account).map ActualPayee.id =
      some "payee_chk" ∧
    ("payee_sav" : String) ≠ "payee_chk" := by
  refine ⟨by decide, by decide, by decide⟩

/-- C5 (amended): for every detected transfer whose destination has a
resolvable transfer payee (and whose posting account resolves), the engine
synthesizes exactly one mirror wire record for the destination account, with
amount the negation of the primary amount, imported id the primary id with
`"_mirror"` appended, the same date and notes, and payee the transfer payee
of the *destination* account — the same payee id the primary leg uses. -/
theorem importTransactions_mirror_synthesis
    (st : ClientState) (t : CanonicalTransaction) (acct : ActualAccount) (p : ActualPayee)
    (hOver : t.accountIdOverride = none)
    (hAcc : t.Account ≠ "")
    (hFind : st.findAccount t.Account = some acct)
    (hT : t.isTransferFlag = true)
    (hTo : truthy t.transferToAccount = true)
    (hp : st.findTransferPayee (t.transferToAccount.getD "") = some p) :
    (convertToImportFormat st t).payee = some p.id ∧
    importExpandOne st t =
      some [{ accountKey := acct.id, record := convertToImportFormat st t, isMirror := false },
            { accountKey := t.transferToAccount.getD "",
              record :=
                { date := t.Date, amount := -t.Amount,
                  imported_id := (convertToImportFormat st t).imported_id ++ "_mirror",
                  cleared := false, payee := some p.id, notes := some t.Notes },
              isMirror := true }] := by
  constructor
  · unfold convertToImportFormat
    simp only [hT, hTo, Bool.and_self, if_true, hp]
    split <;> rfl
  · unfold importExpandOne
    have h0 : truthy (none : Option String) = false := rfl
    have hacc : (t.Account == "") = false := by simpa using hAcc
    simp [hOver, h0, hacc, hFind, hT, hTo, hp]

/-- Witness for C5 (amended) at the concrete Checking→Savings fixture. -/
theorem importTransactions_mirror_synthesis_witness :
    (convertToImportFormat clientFixture transferTx).payee = some savTransferPayee.id ∧
    importExpandOne clientFixture transferTx =
      some [{ accountKey := chkAccount.id,
              record := convertToImportFormat clientFixture transferTx, isMirror := false },
            { accountKey := transferTx.transferToAccount.getD "",
              record :=
                { date := transferTx.Date, amount := -transferTx.Amount,
                  imported_id :=
                    (convertToImportFormat clientFixture transferTx).imported_id ++ "_mirror",
                  cleared := false, payee := some savTransferPayee.id,
                  notes := some transferTx.Notes },
              isMirror := true }] :=
  importTransactions_mirror_synthesis clientFixture transferTx chkAccount savTransferPayee
    rfl (by decide) (by decide) rfl rfl (by decide)

/-- C6: `resolveAccount` returns the first entry, in declaration order, whose
pattern matches the name (`List.find?` semantics), and `null` when no entry
matches; plain patterns match exactly and case-insensitively, metacharacter
patterns via the host's anchored case-insensitive regex `^pattern$`
(`resolveMatches`).  The hypothesis restricts configurations to meaningful
mappings (both fields non-empty), since the code skips degenerate entries. -/
theorem resolveAccount_first_match (regexTest : String → String → Bool) (name : String)
    (accounts : List AccountMapping)
    (hwf : ∀ a ∈ accounts, a.wsAccountName ≠ "" ∧ a.actualAccountId ≠ "") :
    resolveAccount regexTest name accounts =
      (accounts.find? (resolveMatches regexTest name)).map (resolveResult name) ∧
    ((∀ a ∈ accounts, resolveMatches regexTest name a = false) →
      resolveAccount regexTest name accounts = none) := by
  have key : resolveAccount regexTest name accounts =
      (accounts.find? (resolveMatches regexTest name)).map (resolveResult name) := by
    induction accounts with
    | nil => rfl
    | cons a rest ih =>
      obtain ⟨h1, h2⟩ := hwf a (List.mem_cons_self a rest)
      have hrest := fun b hb => hwf b (List.mem_cons_of_mem a hb)
      rw [resolveAccount]
      have hskip : (a.wsAccountName == "" || a.actualAccountId == "") = false := by
        simp [h1, h2]
      rw [hskip]
      by_cases hre : hasRegexChars a.wsAccountName = true
      · by_cases htest : regexTest ("^" ++ a.wsAccountName ++ "$") name = true
        · simp [hre, htest, List.find?, resolveMatches, resolveResult]
        · simp [hre, htest, List.find?, resolveMatches, ih hrest]
      · by_cases htest : (jsToLower a.wsAccountName == jsToLower name) = true
        · simp [hre, htest, List.find?, resolveMatches, resolveResult]
        · simp [hre, htest, List.find?, resolveMatches, ih hrest]
  refine ⟨key, fun hnone => ?_⟩
  rw [key, List.find?_eq_none.mpr (fun a ha => by simp [hnone a ha])]
  rfl

/-- Witness for C6 at a concrete two-entry configuration in which both
entries match. -/
theorem resolveAccount_first_match_witness :
    resolveAccount regexNone "CASH" [mappingA, mappingB] =
      (([mappingA, mappingB]).find? (resolveMatches regexNone "CASH")).map
        (resolveResult "CASH") ∧
    ((∀ a ∈ [mappingA, mappingB], resolveMatches regexNone "CASH" a = false) →
      resolveAccount regexNone "CASH" [mappingA, mappingB] = none) :=
  resolveAccount_first_match regexNone "CASH" [mappingA, mappingB] (by decide)

/-- Validation: with two entries both matching `"CASH"`, the first one (by
declaration order) is returned, never the second. -/
theorem resolveAccount_validation :
    resolveMatches regexNone "CASH" mappingA = true ∧
    resolveMatches regexNone "CASH" mappingB = true ∧
    resolveAccount regexNone "CASH" [mappingA, mappingB] =
      some (resolveResult "CASH" mappingA) := by
  refine ⟨by decide, by decide, by decide⟩

/-- Appending a non-empty string never yields the empty string. -/
theorem strAppend_eq_empty {a b : String} (h : a ++ b = "") : b = "" := by
  have hd : a.data ++ b.data = ([] : List Char) := congrArg String.data h
  have hb : b.data = [] := (List.append_eq_nil.mp hd).2
  cases b with
  | mk lb => exact congrArg String.mk hb

/-- Associativity of string append (via the underlying character lists). -/
theorem strAppend_assoc (a b c : String) : (a ++ b) ++ c = a ++ (b ++ c) := by
  cases a with
  | mk la =>
    cases b with
    | mk lb =>
      cases c with
      | mk lc => exact congrArg String.mk (List.append_assoc la lb lc)

/-- Boolean form: a string with a non-empty right part is non-empty. -/
theorem beq_empty_append (a b : String) (h : (b == "") = false) :
    ((a ++ b) == "") = false := by
  simp only [beq_eq_false_iff_ne] at h ⊢
  exact fun hab => h (strAppend_eq_empty hab)

/-- A bracketed transaction id is never the empty string. -/
theorem bracket_ne_empty (x : String) : (("[" ++ x ++ "]") == "") = false :=
  beq_empty_append _ _ (by decide)

/-- The closing bracket is not the empty string. -/
theorem closeBracket_ne_empty : (("]" : String) == "") = false := by decide

/-- Characterization of an empty concatenation. -/
theorem strAppend_eq_empty_iff (a b : String) : a ++ b = "" ↔ a = "" ∧ b = "" := by
  constructor
  · intro h
    have hd : a.data ++ b.data = ([] : List Char) := congrArg String.data h
    obtain ⟨ha, hb⟩ := List.append_eq_nil.mp hd
    cases a with
    | mk la =>
      cases b with
      | mk lb => exact ⟨congrArg String.mk ha, congrArg String.mk hb⟩
  · rintro ⟨ha, hb⟩
    rw [ha, hb]
    rfl

/-- Rendering of the trimmed-presence test used by the notes claim. -/
theorem presentTrimmed_eq_ite (o : Option String) :
    presentTrimmed o =
      if (optTrim o).getD "" == "" then none else some ((optTrim o).getD "") := by
  cases o <;> simp [presentTrimmed, optTrim]

/-- A detected transfer has truthy `from` and `to` legs. -/
theorem detect_isTransfer_truthy (t : WSTransaction) (m : Option (String → Bool))
    (h : (detectTransfer t m).isTransfer = true) :
    (truthy t.fromAcct && truthy t.toAcct) = true := by
  by_cases hg : (truthy t.fromAcct && truthy t.toAcct) = true
  · exact hg
  · exfalso
    unfold detectTransfer at h
    rw [if_neg hg] at h
    simp at h

/-- C7: the Notes field equals the claim's specification `notesSpecC7` — the
transfer arrow form for detected transfers; otherwise the
subheading/type main part, the optional parenthesised email, and the exact
colon-vs-no-colon suffix branching. -/
theorem transformTransaction_notes_spec (jsD : String → String) (t : WSTransaction)
    (opts : TransformOptions) (hpre : t.transferInfoPre = none) :
    (transformTransaction jsD t opts).Notes = notesSpecC7 t opts := by
  have hN : (transformTransaction jsD t opts).Notes =
      (if (detectTransfer t opts.isAccountMapped).isTransfer &&
          truthy t.fromAcct && truthy t.toAcct
       then t.fromAcct.getD "" ++ " -> " ++ t.toAcct.getD ""
       else buildNotesFromSpec t) := by
    simp [transformTransaction, hpre]
  rw [hN]
  unfold notesSpecC7
  by_cases hdet : (detectTransfer t opts.isAccountMapped).isTransfer = true
  · have hft : truthy t.fromAcct = true ∧ truthy t.toAcct = true := by
      simpa using detect_isTransfer_truthy t opts.isAccountMapped hdet
    simp [hdet, hft.1, hft.2]
  · have hdf : (detectTransfer t opts.isAccountMapped).isTransfer = false := by
      simpa using hdet
    simp only [hdf, Bool.false_and, Bool.false_eq_true, if_false]
    simp only [presentTrimmed_eq_ite]
    unfold buildNotesFromSpec
    have litBracket : ∀ s : String, " " ++ ("[" ++ s) = " [" ++ s := fun s => by
      rw [← strAppend_assoc]
      rfl
    have litBracket2 : ∀ s : String, ") " ++ ("[" ++ s) = ") [" ++ s := fun s => by
      rw [← strAppend_assoc]
      rfl
    by_cases hs : ((optTrim t.subheading).getD "" == "") = true <;>
    by_cases hty : ((optTrim t.type).getD "" == "") = true <;>
    by_cases he : ((optTrim t.email).getD "" == "") = true <;>
    by_cases hm : ((optTrim t.message).getD "" == "") = true <;>
    by_cases hq : ((optTrim t.filledQuantity).getD "" == "") = true <;>
    by_cases hi : ((optTrim t.transactionId).getD "" == "") = true <;>
      simp [joinSpace, bne, hs, hty, he, hm, hq, hi, bracket_ne_empty, beq_empty_append,
        closeBracket_ne_empty, strAppend_eq_empty_iff, strAppend_assoc, litBracket, litBracket2]

/-- Witness for C7 at the spec's concrete notes scenario. -/
theorem transformTransaction_notes_spec_witness :
    (transformTransaction id txNotesScenario {}).Notes = notesSpecC7 txNotesScenario {} :=
  transformTransaction_notes_spec id txNotesScenario {} rfl

/-- Validation: the spec scenario's notes string, its `"(u@x.com): Biweekly"`
core and its `"[t1]"` tail. -/
theorem notes_scenario_validation :
    (transformTransaction id txNotesScenario {}).Notes = "deposit (u@x.com): Biweekly [t1]" := by
  decide

/-- The amount is `null` exactly when the regex fails to match. -/
theorem parse_amount_none_iff (s : String) :
    (parseCurrencyValue s).amount = none ↔ currencyRegexMatch s = none := by
  unfold parseCurrencyValue
  cases h : currencyRegexMatch s <;> simp [h]

/-- The regex fails exactly when the code grammar rejects. -/
theorem regexMatch_none_iff (s : String) :
    currencyRegexMatch s = none ↔ codeGrammarC8 s = false := by
  unfold currencyRegexMatch codeGrammarC8
  cases hrun : ((currencyPrefix s.data).2.2.takeWhile (fun c => c.isDigit || c == ',')).isEmpty
  · cases ht : currencyTail
        ((currencyPrefix s.data).2.2.drop
          ((currencyPrefix s.data).2.2.takeWhile (fun c => c.isDigit || c == ',')).length) with
    | none => simp [hrun, ht]
    | some p => simp [hrun, ht]
  · simp [hrun]

/-- A digit is not a comma. -/
theorem digit_ne_comma {c : Char} (h : c.isDigit = true) : (c == ',') = false := by
  cases hc : c == ','
  · rfl
  · exfalso
    have hcc : c = ',' := beq_iff_eq.mp hc
    rw [hcc] at h
    exact absurd h (by decide)

/-- A digit-groups run starts with a digit. -/
theorem digitGroupsB_head {fuel : Nat} {l : List Char} (h : digitGroupsB fuel l = true) :
    ∃ c cs, l = c :: cs ∧ c.isDigit = true := by
  cases fuel with
  | zero =>
    cases l with
    | nil => exact absurd h (by decide)
    | cons c cs =>
      refine ⟨c, cs, rfl, ?_⟩
      simp [digitGroupsB] at h
      exact h.1
  | succ n =>
    cases l with
    | nil => simp [digitGroupsB] at h
    | cons c cs =>
      refine ⟨c, cs, rfl, ?_⟩
      by_cases hc : c.isDigit = true
      · exact hc
      · exfalso
        simp [digitGroupsB, List.takeWhile, hc] at h

/-- C8 counterexample: the input `","` fails the claim's grammar (its digit
part has no digit) yet parses with `amount = NaN`, not `null`. -/
theorem parseCurrencyValue_comma_counterexample :
    claimGrammarC8 "," = false ∧
    (parseCurrencyValue ",").amount = some JSNum.nan ∧
    (parseCurrencyValue ",").amount ≠ none := by
  refine ⟨by decide, by decide, by decide⟩

/-- C8 (amended): `parseCurrencyValue` is total and never throws; the amount
is `null` (with `currency` `undefined`) exactly when the regex grammar — the
claim's grammar with the digit part relaxed to any non-empty digit/comma run
— rejects; on every input matching the claim's stricter grammar the amount
is a proper signed number; a run with no digits (commas only) yields `NaN`,
not `null`; and `"− $50.00"` and `"$-50.00"` both parse to `-50`. -/
theorem parseCurrencyValue_grammar :
    (∀ s : String, (parseCurrencyValue s).amount = none ↔ codeGrammarC8 s = false) ∧
    (∀ s : String, (parseCurrencyValue s).amount = none →
      (parseCurrencyValue s).currency = none) ∧
    (∀ s : String, claimGrammarC8 s = true →
      ∃ q : ℚ, (parseCurrencyValue s).amount = some (JSNum.num q)) ∧
    parseCurrencyValue "− $50.00" = { amount := some (JSNum.num (-50)), currency := none } ∧
    parseCurrencyValue "$-50.00" = { amount := some (JSNum.num (-50)), currency := none } ∧
    parseCurrencyValue "$," = { amount := some JSNum.nan, currency := none } := by
  refine ⟨?_, ?_, ?_, by decide, by decide, by decide⟩
  · intro s
    rw [parse_amount_none_iff, regexMatch_none_iff]
  · intro s h
    rw [parse_amount_none_iff] at h
    unfold parseCurrencyValue
    rw [h]
  · intro s hg
    have hparts : digitGroups
        ((currencyPrefix s.data).2.2.takeWhile (fun c => c.isDigit || c == ',')) = true ∧
        (currencyTail
          ((currencyPrefix s.data).2.2.drop
            ((currencyPrefix s.data).2.2.takeWhile
              (fun c => c.isDigit || c == ',')).length)).isSome = true := by
      simpa [claimGrammarC8] using hg
    obtain ⟨hd, ht⟩ := hparts
    obtain ⟨c, cs, hrun, hdig⟩ := digitGroupsB_head hd
    obtain ⟨p, hp⟩ := Option.isSome_iff_exists.mp ht
    obtain ⟨dec, ccy⟩ := p
    have hmatch : currencyRegexMatch s =
        some { sign1 := (currencyPrefix s.data).1, sign2 := (currencyPrefix s.data).2.1,
               numText := (c :: cs) ++ dec, ccy := ccy } := by
      unfold currencyRegexMatch
      rw [hrun] at hp
      simp only [List.length_cons] at hp
      simp [hrun, hp]
    have hfloat : ∃ q : ℚ, parseFloatNum ((c :: cs) ++ dec) = JSNum.num q := by
      unfold parseFloatNum
      simp only [List.cons_append, List.filter_cons, digit_ne_comma hdig, Bool.not_false,
        if_true, List.takeWhile_cons, hdig, List.isEmpty_cons, Bool.false_and,
        Bool.false_eq_true, if_false]
      exact ⟨_, rfl⟩
    obtain ⟨q, hq⟩ := hfloat
    unfold parseCurrencyValue
    rw [hmatch]
    simp only [hq]
    exact ⟨_, rfl⟩

/-- Witness for C8 (amended) at a concrete claim-grammar input. -/
theorem parseCurrencyValue_grammar_witness :
    ∃ q : ℚ, (parseCurrencyValue "1,234.56 CAD").amount = some (JSNum.num q) :=
  parseCurrencyValue_grammar.2.2.1 "1,234.56 CAD" (by decide)

end MainTheorems

end WsActual
